import Mathlib

/-!
Verification of the `scripts/` package of the JupyterLab data-science
repository: a shallow embedding in Lean 4 of the RBAC session layer of
`data_processing.py` and of the path / format-dispatch helpers of
`utils.py`, together with theorems settling the specification claims.

Modelling conventions:
* Python dictionaries with string keys become association lists
  (`List (String × _)`) in insertion order; `d[k] = v` overwrites in place.
* Python `datetime.now().timestamp()` (a float) is modelled as an
  explicit rational-number clock parameter threaded to each call site.
* Python exceptions become `Except` results; the two custom exception
  classes of `data_processing.py` become the inductive `AuthError`.
* Filesystem paths are lists of components; `Path.resolve()` is lexical
  normalisation (symlinks are outside the model).
-/

namespace DataProcessing

/-- Role definitions: the `ROLES` dictionary of `data_processing.py`,
mapping role name to its list of permission strings, in source order. -/
def ROLES : List (String × List String) :=
  [("admin", ["read", "write", "delete", "scale", "encode", "split", "process"]),
   ("data_scientist", ["read", "write", "scale", "encode", "split", "process"]),
   ("data_analyst", ["read", "scale", "encode", "process"]),
   ("viewer", ["read"])]

/-- `role in ROLES`: dictionary key membership. -/
def roleDefined (role : String) : Bool :=
  ROLES.any (fun p => p.1 = role)

/-- `ROLES[role]` (empty when the key is absent; the code only indexes
after a successful membership check). -/
def rolePermissions (role : String) : List String :=
  match ROLES.find? (fun p => p.1 = role) with
  | some p => p.2
  | none => []

/-- One entry of `_active_sessions`: the dictionary
`{'user_id': ..., 'role': ..., 'created_at': ..., 'permissions': ...}`
stored by `create_session`. -/
structure Session where
  user_id : String
  role : String
  created_at : ℚ
  permissions : List String
deriving DecidableEq, Repr

/-- The `_active_sessions` module-level dictionary: token → session. -/
abbrev Sessions := List (String × Session)

/-- Dictionary assignment `d[k] = v`: overwrite the entry if the key is
present, otherwise append a new entry (Python dicts keep insertion
order; we cons, which is equally a faithful key→value model). -/
def dictInsert (tok : String) (sess : Session) (s : Sessions) : Sessions :=
  if s.any (fun p => p.1 = tok) then
    s.map (fun p => if p.1 = tok then (tok, sess) else p)
  else
    (tok, sess) :: s

/-- Dictionary lookup `d.get(k)`: first (and, keys being unique, only)
entry with the key. -/
def dictGet : Sessions → String → Option Session
  | [], _ => none
  | p :: rest, tok => if p.1 = tok then some p.2 else dictGet rest tok

/-- `del d[k]`. -/
def dictDel (s : Sessions) (tok : String) : Sessions :=
  s.filter (fun p => p.1 ≠ tok)

/-- The token string built by `create_session`:
`f"session_{user_id}_{datetime.now().timestamp()}"`.  (Python formats the
float timestamp with `str`; we format the rational clock value with
`toString`, which preserves injectivity in the clock value.) -/
def mkSessionToken (user_id : String) (now : ℚ) : String :=
  "session_" ++ user_id ++ "_" ++ toString now

/-- `create_session(user_id, role)`.  The wall clock reading
`datetime.now().timestamp()` is the explicit argument `now`; the global
`_active_sessions` is the explicit argument `s`.  Returns the token and
the updated table, or the `ValueError` message. -/
def create_session (s : Sessions) (user_id role : String) (now : ℚ) :
    Except String (String × Sessions) :=
  if roleDefined role then
    let session_token := mkSessionToken user_id now
    .ok (session_token,
      dictInsert session_token
        ⟨user_id, role, now, rolePermissions role⟩ s)
  else
    .error "Invalid role"

/-- `get_session(session_token)`: `_active_sessions.get(session_token)`. -/
def get_session (s : Sessions) (session_token : String) : Option Session :=
  dictGet s session_token

/-- `revoke_session(session_token)`: returns the boolean result and the
table after the (possible) `del`. -/
def revoke_session (s : Sessions) (session_token : String) :
    Bool × Sessions :=
  if s.any (fun p => p.1 = session_token) then
    (true, dictDel s session_token)
  else
    (false, s)

/-- The two exception classes raised by the decorators. -/
inductive AuthError where
  | authentication
  | authorization
deriving DecidableEq, Repr

/-- A `session_token` keyword argument: `none` models an absent keyword,
`some t` a supplied string (Python treats the empty string, like `None`,
as falsy in `if not session_token`). -/
def tokenFalsy : Option String → Bool
  | none => true
  | some t => t = ""

/-- The gate installed by `require_permission(permission)` in front of
the wrapped function: the checks of the `wrapper` body, in source order.
`.ok` means control reaches the call of the wrapped function. -/
def requirePermissionGate (permission : String) (s : Sessions)
    (session_token : Option String) : Except AuthError Unit :=
  if tokenFalsy session_token then
    .error .authentication
  else
    match session_token with
    | none => .error .authentication
    | some tok =>
      match get_session s tok with
      | none => .error .authentication
      | some session =>
        if permission ∈ session.permissions then
          .ok ()
        else
          .error .authorization

/-- A call to a function wrapped by `require_permission(permission)`:
the wrapped body `f` runs exactly when the gate passes. -/
def requirePermission {α β : Type} (permission : String) (f : α → β)
    (s : Sessions) (session_token : Option String) (x : α) :
    Except AuthError β :=
  match requirePermissionGate permission s session_token with
  | .ok _ => .ok (f x)
  | .error e => .error e

/-- The gate installed by `require_role(required_role)`: identical to
the permission gate except that it compares the session's role for
equality with the required role. -/
def requireRoleGate (required_role : String) (s : Sessions)
    (session_token : Option String) : Except AuthError Unit :=
  if tokenFalsy session_token then
    .error .authentication
  else
    match session_token with
    | none => .error .authentication
    | some tok =>
      match get_session s tok with
      | none => .error .authentication
      | some session =>
        if session.role = required_role then
          .ok ()
        else
          .error .authorization

/-- A call to a function wrapped by `require_role(required_role)`. -/
def requireRole {α β : Type} (required_role : String) (f : α → β)
    (s : Sessions) (session_token : Option String) (x : α) :
    Except AuthError β :=
  match requireRoleGate required_role s session_token with
  | .ok _ => .ok (f x)
  | .error e => .error e

/-- The seven processing functions of `data_processing.py`, each with
the permission string its `require_permission` decorator demands. -/
def decoratedPermissions : List (String × String) :=
  [("clean_column_names", "read"),
   ("handle_missing_values", "process"),
   ("encode_categorical_variables", "encode"),
   ("scale_features", "scale"),
   ("detect_outliers", "read"),
   ("split_data", "split"),
   ("create_feature_summary", "read")]

/-- The seven permission strings the spec allows. -/
def allPermissions : List String :=
  ["read", "write", "delete", "scale", "encode", "split", "process"]

/-- The session table after a `create_session` call, as the caller of
the module sees it: on `ValueError` the assignment never ran and the
table is untouched. -/
def createStep (s : Sessions) (user_id role : String) (now : ℚ) :
    Sessions :=
  match create_session s user_id role now with
  | .ok p => p.2
  | .error _ => s

/-- One operation against the session layer.  `get` and `callPerm`
(`get_session` and a call to any decorated processing function) never
assign to `_active_sessions`, which their definitions read only. -/
inductive AuthOp where
  | create (user_id role : String) (now : ℚ)
  | get (tok : String)
  | callPerm (perm : String) (tok : Option String)
  | revoke (tok : String)
deriving DecidableEq, Repr

/-- Effect of one operation on the session table. -/
def applyOp (s : Sessions) : AuthOp → Sessions
  | .create user_id role now => createStep s user_id role now
  | .get _ => s
  | .callPerm _ _ => s
  | .revoke tok => (revoke_session s tok).2

/-- Effect of a sequence of operations on the session table. -/
def applyOps (s : Sessions) : List AuthOp → Sessions
  | [] => s
  | op :: ops => applyOps (applyOp s op) ops

/-- The token, if any, that an operation writes to the table. -/
def opToken : AuthOp → Option String
  | .create user_id _ now => some (mkSessionToken user_id now)
  | _ => none

end DataProcessing

namespace DataProcessing

/-! Dictionary lemmas used by the session-layer theorems. -/

theorem dictGet_overwrite (tok : String) (sess : Session) :
    ∀ s : Sessions, s.any (fun p => p.1 = tok) = true →
    dictGet (s.map (fun p => if p.1 = tok then (tok, sess) else p)) tok =
      some sess := by
  intro s
  induction s with
  | nil => intro h; simp at h
  | cons hd tl ih =>
    intro hany
    by_cases h : hd.1 = tok
    · simp [dictGet, h]
    · simp only [List.any_cons, Bool.or_eq_true, decide_eq_true_eq] at hany
      rcases hany with hh | htl
      · exact absurd hh h
      · simp [dictGet, h]
        exact ih htl

theorem dictGet_overwrite_ne (tok t : String) (sess : Session)
    (hne : t ≠ tok) :
    ∀ s : Sessions,
    dictGet (s.map (fun p => if p.1 = tok then (tok, sess) else p)) t =
      dictGet s t := by
  intro s
  induction s with
  | nil => rfl
  | cons hd tl ih =>
    by_cases h : hd.1 = tok
    · simp [dictGet, h, Ne.symm hne, ih]
    · simp only [List.map_cons, if_neg h]
      by_cases h2 : hd.1 = t
      · simp [dictGet, h2]
      · simp [dictGet, h2, ih]

theorem get_session_insert_self (s : Sessions) (tok : String)
    (sess : Session) :
    get_session (dictInsert tok sess s) tok = some sess := by
  unfold get_session dictInsert
  split
  next hany => exact dictGet_overwrite tok sess s hany
  next => simp [dictGet]

theorem get_session_insert_ne (s : Sessions) (tok t : String)
    (sess : Session) (hne : t ≠ tok) :
    get_session (dictInsert tok sess s) t = get_session s t := by
  unfold get_session dictInsert
  split
  next => exact dictGet_overwrite_ne tok t sess hne s
  next => simp [dictGet, Ne.symm hne]

theorem dictGet_del_self (t : String) :
    ∀ s : Sessions, dictGet (dictDel s t) t = none := by
  intro s
  induction s with
  | nil => rfl
  | cons hd tl ih =>
    by_cases h : hd.1 = t
    · simpa [dictDel, h] using ih
    · simpa [dictDel, dictGet, h] using ih

theorem dictGet_del_ne (t t' : String) (hne : t' ≠ t) :
    ∀ s : Sessions, dictGet (dictDel s t) t' = dictGet s t' := by
  intro s
  induction s with
  | nil => rfl
  | cons hd tl ih =>
    simp only [dictDel, ne_eq, decide_not] at ih ⊢
    by_cases h : hd.1 = t
    · simpa [List.filter_cons, h, dictGet, Ne.symm hne] using ih
    · simp [List.filter_cons, h, dictGet, ih]

theorem any_key_iff_isSome (t : String) :
    ∀ s : Sessions,
    s.any (fun p => p.1 = t) = true ↔ (dictGet s t).isSome = true := by
  intro s
  induction s with
  | nil => simp [dictGet]
  | cons hd tl ih =>
    by_cases h : hd.1 = t
    · simp [dictGet, h]
    · simp [dictGet, h, ih]

/-- The token of a `create_session` run, for stating determinism. -/
def runToken (s : Sessions) (user_id role : String) (now : ℚ) :
    Option String :=
  match create_session s user_id role now with
  | .ok p => some p.1
  | .error _ => none

/-- Counterexample to claim C2: the claim asserts that two runs of
`create_session` with identical `user_id`, role, and clock value yield
distinct tokens.  In fact the token is computed as
`f"session_\x7buser_id\x7d_\x7bdatetime.now().timestamp()\x7d"` with no
random input, so with the clock fixed at 100.0 both runs for user
`alice` with role `viewer` produce exactly the string
`"session_alice_100"` — the same token, not distinct ones. -/
theorem C2_counterexample :
    runToken [] "alice" "viewer" 100 = some "session_alice_100" ∧
    runToken [] "alice" "viewer" 100 = runToken [] "alice" "viewer" 100 := by
  exact ⟨by decide, rfl⟩

/-- Claim C2 (amended): the session token is a deterministic function of
`user_id` and the clock reading alone — any two successful
`create_session` runs with the same `user_id` and clock value return the
same token `"session_" ++ user_id ++ "_" ++ str(timestamp)`, whatever
the roles and the prior table states. -/
theorem C2_token_deterministic :
    ∀ (s₁ s₂ : Sessions) (user_id role₁ role₂ : String) (now : ℚ)
      (t₁ t₂ : String) (s₁' s₂' : Sessions),
      create_session s₁ user_id role₁ now = .ok (t₁, s₁') →
      create_session s₂ user_id role₂ now = .ok (t₂, s₂') →
      t₁ = "session_" ++ user_id ++ "_" ++ toString now ∧ t₁ = t₂ := by
  intro s₁ s₂ user_id role₁ role₂ now t₁ t₂ s₁' s₂' h₁ h₂
  unfold create_session at h₁ h₂
  by_cases hr₁ : roleDefined role₁
  · by_cases hr₂ : roleDefined role₂
    · simp [hr₁] at h₁
      simp [hr₂] at h₂
      rw [← h₁.1, ← h₂.1]
      exact ⟨rfl, rfl⟩
    · simp [hr₂] at h₂
  · simp [hr₁] at h₁

/-- Witness for C2's amended theorem: two runs for `alice` at clock 100,
one as `viewer` on an empty table and one as `admin` on a one-entry
table, both return the token `"session_alice_100"`. -/
theorem C2_token_deterministic_witness :
    "session_alice_100" = "session_" ++ "alice" ++ "_" ++ toString (100 : ℚ) ∧
    "session_alice_100" = "session_alice_100" := by
  exact C2_token_deterministic [] [("t0", ⟨"bob", "viewer", 1, rolePermissions "viewer"⟩)]
    "alice" "viewer" "admin" 100 "session_alice_100" "session_alice_100"
    (dictInsert "session_alice_100" ⟨"alice", "viewer", 100, rolePermissions "viewer"⟩ [])
    (dictInsert "session_alice_100" ⟨"alice", "admin", 100, rolePermissions "admin"⟩
      [("t0", ⟨"bob", "viewer", 1, rolePermissions "viewer"⟩)])
    rfl rfl

/-- Claim C5: `revoke_session(t)` returns `True` and deletes exactly the
entry for `t` iff `t` is a key of the table (afterwards `get_session t`
is `None` and every other token's entry is unchanged); otherwise it
returns `False` and leaves the table untouched. -/
theorem C5_revoke_session_spec :
    ∀ (s : Sessions) (t : String),
      ((revoke_session s t).1 = true ↔ (get_session s t).isSome = true) ∧
      ((get_session s t).isSome = true →
        get_session (revoke_session s t).2 t = none) ∧
      (∀ t', t' ≠ t →
        get_session (revoke_session s t).2 t' = get_session s t') ∧
      ((get_session s t).isSome = false → (revoke_session s t).2 = s) := by
  intro s t
  have hany : s.any (fun p => p.1 = t) = true ↔
      (get_session s t).isSome = true := any_key_iff_isSome t s
  refine ⟨?_, ?_, ?_, ?_⟩
  · unfold revoke_session
    by_cases h : s.any (fun p => p.1 = t) = true
    · rw [if_pos h]
      exact ⟨fun _ => hany.mp h, fun _ => rfl⟩
    · rw [if_neg h]
      exact ⟨fun hfalse => absurd hfalse (by simp),
             fun hsome => absurd (hany.mpr hsome) h⟩
  · intro hsome
    unfold revoke_session
    rw [if_pos (hany.mpr hsome)]
    exact dictGet_del_self t s
  · intro t' hne
    unfold revoke_session
    by_cases h : s.any (fun p => p.1 = t) = true
    · rw [if_pos h]
      exact dictGet_del_ne t t' hne s
    · rw [if_neg h]
  · intro hnone
    unfold revoke_session
    have h : ¬ s.any (fun p => p.1 = t) = true := fun h => by
      rw [hany.mp h] at hnone
      exact absurd hnone (by decide)
    rw [if_neg h]

/-- Witness for C5: revoking the only session of a two-entry table
returns `True`, removes it, and keeps the other entry. -/
theorem C5_revoke_session_spec_witness :
    ((revoke_session
        [("t1", ⟨"u1", "admin", 5, rolePermissions "admin"⟩),
         ("t2", ⟨"u2", "viewer", 6, rolePermissions "viewer"⟩)] "t1").1 = true ↔
      (get_session
        [("t1", ⟨"u1", "admin", 5, rolePermissions "admin"⟩),
         ("t2", ⟨"u2", "viewer", 6, rolePermissions "viewer"⟩)] "t1").isSome = true) ∧
    get_session (revoke_session
        [("t1", ⟨"u1", "admin", 5, rolePermissions "admin"⟩),
         ("t2", ⟨"u2", "viewer", 6, rolePermissions "viewer"⟩)] "t1").2 "t1" = none ∧
    get_session (revoke_session
        [("t1", ⟨"u1", "admin", 5, rolePermissions "admin"⟩),
         ("t2", ⟨"u2", "viewer", 6, rolePermissions "viewer"⟩)] "t1").2 "t2" =
      get_session
        [("t1", ⟨"u1", "admin", 5, rolePermissions "admin"⟩),
         ("t2", ⟨"u2", "viewer", 6, rolePermissions "viewer"⟩)] "t2" := by
  have h := C5_revoke_session_spec
    [("t1", ⟨"u1", "admin", 5, rolePermissions "admin"⟩),
     ("t2", ⟨"u2", "viewer", 6, rolePermissions "viewer"⟩)] "t1"
  exact ⟨h.1, h.2.1 (by decide), h.2.2.1 "t2" (by decide)⟩

/-- Claim C7: for a defined role, `create_session` returns the token
`mkSessionToken user_id now` and afterwards the table maps that token to
exactly the record `{user_id, role, created_at := now, permissions :=
ROLES[role]}`, other entries being untouched; for an undefined role it
raises `ValueError` and the table gains no entry. -/
theorem C7_create_session_spec :
    ∀ (s : Sessions) (user_id role : String) (now : ℚ),
      (roleDefined role = true →
        ∀ t s', create_session s user_id role now = .ok (t, s') →
          t = mkSessionToken user_id now ∧
          get_session s' t = some ⟨user_id, role, now, rolePermissions role⟩ ∧
          (∀ t', t' ≠ t → get_session s' t' = get_session s t')) ∧
      (roleDefined role = false →
        create_session s user_id role now = .error "Invalid role" ∧
        createStep s user_id role now = s) := by
  intro s user_id role now
  constructor
  · intro hrole t s' hok
    unfold create_session at hok
    rw [if_pos hrole] at hok
    have ht : t = mkSessionToken user_id now := by
      injection hok with h
      exact (congrArg Prod.fst h).symm
    have hs' : s' = dictInsert (mkSessionToken user_id now)
        ⟨user_id, role, now, rolePermissions role⟩ s := by
      injection hok with h
      exact (congrArg Prod.snd h).symm
    subst ht
    subst hs'
    refine ⟨rfl, get_session_insert_self _ _ _, ?_⟩
    intro t' hne
    exact get_session_insert_ne _ _ _ _ hne
  · intro hrole
    constructor
    · unfold create_session
      rw [if_neg (by simp [hrole])]
    · unfold createStep create_session
      rw [if_neg (by simp [hrole])]

/-- Witness for C7: creating a `data_analyst` session for `carol` at
clock 7 stores exactly the expected record, and creating a session with
the undefined role `hacker` is a `ValueError` leaving the table as it
was. -/
theorem C7_create_session_spec_witness :
    ("session_carol_7" = mkSessionToken "carol" 7 ∧
     get_session (dictInsert "session_carol_7"
        ⟨"carol", "data_analyst", 7, rolePermissions "data_analyst"⟩ [])
        "session_carol_7" =
       some ⟨"carol", "data_analyst", 7, rolePermissions "data_analyst"⟩ ∧
     (∀ t', t' ≠ "session_carol_7" →
       get_session (dictInsert "session_carol_7"
          ⟨"carol", "data_analyst", 7, rolePermissions "data_analyst"⟩ [])
          t' = get_session [] t')) ∧
    (create_session [] "carol" "hacker" 7 = .error "Invalid role" ∧
     createStep [] "carol" "hacker" 7 = []) := by
  exact ⟨(C7_create_session_spec [] "carol" "data_analyst" 7).1 (by decide)
      "session_carol_7"
      (dictInsert "session_carol_7"
        ⟨"carol", "data_analyst", 7, rolePermissions "data_analyst"⟩ [])
      rfl,
    (C7_create_session_spec [] "carol" "hacker" 7).2 (by decide)⟩

/-- Counterexample to claim C4: the claim says that under any sequence
of `create_session` / `get_session` / decorated-call operations, a token
present in the table keeps an unchanged record.  But
`_active_sessions[session_token] = ...` overwrites: starting from a
table holding `session_alice_5` with role `admin` (as created by
`create_session("alice", "admin")` at clock 5.0), a second
`create_session("alice", "viewer")` at the same clock reading generates
the same token string and replaces the record — the token's role is now
`viewer`, not `admin`. -/
theorem C4_counterexample :
    get_session (applyOps
        [("session_alice_5", ⟨"alice", "admin", 5, rolePermissions "admin"⟩)]
        [.create "alice" "viewer" 5]) "session_alice_5" =
      some ⟨"alice", "viewer", 5, rolePermissions "viewer"⟩ ∧
    (⟨"alice", "viewer", 5, rolePermissions "viewer"⟩ : Session) ≠
      ⟨"alice", "admin", 5, rolePermissions "admin"⟩ := by
  exact ⟨by decide, by decide⟩

/-- Claim C4 (amended): under any sequence of `create_session`,
`get_session`, decorated-call, and `revoke_session` operations, none of
which is a revocation of the token `t` itself, a token `t` present in
the table remains present — there is no expiry or eviction, and no
operation consults the clock when reading — and `get_session t` never
returns `None`; moreover its `{user_id, role, created_at, permissions}`
record is unchanged provided no `create_session` call in the sequence
regenerates the very token string `t` (which a call colliding on
`user_id` and clock value would). -/
theorem C4_no_expiry_no_eviction :
    ∀ (ops : List AuthOp) (s : Sessions) (t : String) (sess : Session),
      get_session s t = some sess →
      (∀ op ∈ ops, op ≠ .revoke t) →
      ((get_session (applyOps s ops) t).isSome = true ∧
       ((∀ op ∈ ops, opToken op ≠ some t) →
         get_session (applyOps s ops) t = some sess)) := by
  intro ops
  induction ops with
  | nil =>
    intro s t sess hget _
    exact ⟨by simp [applyOps, hget], fun _ => by simp [applyOps, hget]⟩
  | cons op ops ih =>
    intro s t sess hget hnorev
    have hnorev' : ∀ o ∈ ops, o ≠ .revoke t :=
      fun o ho => hnorev o (List.mem_cons_of_mem op ho)
    have happly : applyOps s (op :: ops) = applyOps (applyOp s op) ops := rfl
    cases op with
    | create user_id role now =>
      by_cases hrole : roleDefined role = true
      · have hstep : applyOp s (.create user_id role now) =
            dictInsert (mkSessionToken user_id now)
              ⟨user_id, role, now, rolePermissions role⟩ s := by
          simp [applyOp, createStep, create_session, hrole]
        by_cases htok : mkSessionToken user_id now = t
        · have hget' : get_session (applyOp s (.create user_id role now)) t =
              some ⟨user_id, role, now, rolePermissions role⟩ := by
            rw [hstep, ← htok]
            exact get_session_insert_self s (mkSessionToken user_id now) _
          have h := ih (applyOp s (.create user_id role now)) t
            ⟨user_id, role, now, rolePermissions role⟩ hget' hnorev'
          refine ⟨h.1, ?_⟩
          intro hnotok
          exact absurd (congrArg some htok)
            (hnotok (.create user_id role now) (List.mem_cons_self _ _))
        · have hget' : get_session (applyOp s (.create user_id role now)) t =
              some sess := by
            rw [hstep,
              get_session_insert_ne s (mkSessionToken user_id now) t _
                (Ne.symm htok)]
            exact hget
          have h := ih (applyOp s (.create user_id role now)) t sess
            hget' hnorev'
          exact ⟨h.1, fun hnotok => h.2
            (fun o ho => hnotok o (List.mem_cons_of_mem _ ho))⟩
      · have hstep : applyOp s (.create user_id role now) = s := by
          simp [applyOp, createStep, create_session, hrole]
        rw [happly, hstep]
        have h := ih s t sess hget hnorev'
        exact ⟨h.1, fun hnotok => h.2
          (fun o ho => hnotok o (List.mem_cons_of_mem _ ho))⟩
    | get tok =>
      rw [happly]
      have h := ih s t sess hget hnorev'
      exact ⟨h.1, fun hnotok => h.2
        (fun o ho => hnotok o (List.mem_cons_of_mem _ ho))⟩
    | callPerm perm tok =>
      rw [happly]
      have h := ih s t sess hget hnorev'
      exact ⟨h.1, fun hnotok => h.2
        (fun o ho => hnotok o (List.mem_cons_of_mem _ ho))⟩
    | revoke tok =>
      have hne : t ≠ tok := by
        intro h
        exact hnorev (.revoke tok) (List.mem_cons_self _ _) (by rw [h])
      have hget' : get_session (applyOp s (.revoke tok)) t =
          get_session s t := by
        simp only [applyOp]
        unfold revoke_session
        by_cases h : s.any (fun p => p.1 = tok) = true
        · rw [if_pos h]
          exact dictGet_del_ne tok t hne s
        · rw [if_neg h]
      rw [happly]
      have h := ih (applyOp s (.revoke tok)) t sess
        (by rw [hget']; exact hget) hnorev'
      exact ⟨h.1, fun hnotok => h.2
        (fun o ho => hnotok o (List.mem_cons_of_mem _ ho))⟩

/-- Witness for C4's amended theorem: through a creation for another
user, a lookup, a gated call, and a revocation of a different token,
the `session_alice_5` admin session stays present and unchanged. -/
theorem C4_no_expiry_no_eviction_witness :
    (get_session (applyOps
        [("session_alice_5", ⟨"alice", "admin", 5, rolePermissions "admin"⟩)]
        [.create "bob" "viewer" 9, .get "session_alice_5",
         .callPerm "read" (some "session_alice_5"), .revoke "other"])
        "session_alice_5").isSome = true ∧
    get_session (applyOps
        [("session_alice_5", ⟨"alice", "admin", 5, rolePermissions "admin"⟩)]
        [.create "bob" "viewer" 9, .get "session_alice_5",
         .callPerm "read" (some "session_alice_5"), .revoke "other"])
        "session_alice_5" =
      some ⟨"alice", "admin", 5, rolePermissions "admin"⟩ := by
  have h := C4_no_expiry_no_eviction
    [.create "bob" "viewer" 9, .get "session_alice_5",
     .callPerm "read" (some "session_alice_5"), .revoke "other"]
    [("session_alice_5", ⟨"alice", "admin", 5, rolePermissions "admin"⟩)]
    "session_alice_5" ⟨"alice", "admin", 5, rolePermissions "admin"⟩
    (by decide) (by decide)
  exact ⟨h.1, h.2 (by decide)⟩

/-- Claim C6: the role→permission mapping `ROLES` contains exactly the
4 roles admin, data_scientist, data_analyst, viewer, and every role's
permission list has at most 7 entries, all drawn from \x7bread, write,
delete, scale, encode, split, process\x7d. -/
theorem C6_roles_mapping_shape :
    ROLES.map Prod.fst =
      ["admin", "data_scientist", "data_analyst", "viewer"] ∧
    (ROLES.all (fun p =>
      decide (p.2.length ≤ 7) &&
      p.2.all (fun perm => allPermissions.contains perm))) = true := by
  decide

/-- Claim C1: for every function decorated with `require_permission(p)`
(the seven entries of `decoratedPermissions`), a call behaves as a
four-way case split on the session token: absent/falsy token ⇒
`AuthenticationError` (and the body does not run); unknown token ⇒
`AuthenticationError`; known session lacking `p` ⇒ `AuthorizationError`;
known session holding `p` ⇒ the body runs.  The result type
`Except AuthError β` shows the gate itself raises no third exception
kind, and the four cases are exhaustive. -/
theorem C1_require_permission_cases :
    ∀ fname perm, (fname, perm) ∈ decoratedPermissions →
    ∀ {α β : Type} (f : α → β) (s : Sessions) (tok : Option String) (x : α),
      (tokenFalsy tok = true →
        requirePermission perm f s tok x = .error .authentication) ∧
      (∀ t, tok = some t → tokenFalsy tok = false →
        get_session s t = none →
        requirePermission perm f s tok x = .error .authentication) ∧
      (∀ t sess, tok = some t → tokenFalsy tok = false →
        get_session s t = some sess → perm ∉ sess.permissions →
        requirePermission perm f s tok x = .error .authorization) ∧
      (∀ t sess, tok = some t → tokenFalsy tok = false →
        get_session s t = some sess → perm ∈ sess.permissions →
        requirePermission perm f s tok x = .ok (f x)) := by
  intro fname perm _ α β f s tok x
  refine ⟨?_, ?_, ?_, ?_⟩
  · intro hfalsy
    simp [requirePermission, requirePermissionGate, hfalsy]
  · intro t htok hfalsy hget
    subst htok
    simp [requirePermission, requirePermissionGate, hfalsy, hget]
  · intro t sess htok hfalsy hget hperm
    subst htok
    simp [requirePermission, requirePermissionGate, hfalsy, hget, hperm]
  · intro t sess htok hfalsy hget hperm
    subst htok
    simp [requirePermission, requirePermissionGate, hfalsy, hget, hperm]

/-- Witness for C1: with the session table holding one viewer session,
`clean_column_names` (permission `read`) runs for that token, and with
an empty table the absent-token and unknown-token cases both yield
`AuthenticationError`, while a viewer calling a `write`-gated body hits
`AuthorizationError`. -/
theorem C1_require_permission_cases_witness :
    requirePermission "read" (fun n => n + 1)
      [("tok1", ⟨"u1", "viewer", 5, rolePermissions "viewer"⟩)]
      (some "tok1") (3 : Nat) = .ok 4 := by
  exact (C1_require_permission_cases "clean_column_names" "read"
    (by decide) (fun n => n + 1)
    [("tok1", ⟨"u1", "viewer", 5, rolePermissions "viewer"⟩)]
    (some "tok1") 3).2.2.2 "tok1"
    ⟨"u1", "viewer", 5, rolePermissions "viewer"⟩ rfl (by decide)
    (by decide) (by decide)

/-- Claim C3: for every call to a function wrapped by `require_role(r)`:
a falsy or unknown token yields `AuthenticationError`; with an existing
session the body runs exactly when the session's role equals `r`
(string equality — an `admin` session does not pass an `r` of
`data_scientist`), and otherwise `AuthorizationError` is raised. -/
theorem C3_require_role_cases :
    ∀ {α β : Type} (r : String) (f : α → β) (s : Sessions)
      (tok : Option String) (x : α),
      (tokenFalsy tok = true →
        requireRole r f s tok x = .error .authentication) ∧
      (∀ t, tok = some t → tokenFalsy tok = false →
        get_session s t = none →
        requireRole r f s tok x = .error .authentication) ∧
      (∀ t sess, tok = some t → tokenFalsy tok = false →
        get_session s t = some sess →
        ((requireRole r f s tok x = .ok (f x) ↔ sess.role = r) ∧
         (sess.role ≠ r →
           requireRole r f s tok x = .error .authorization))) := by
  intro α β r f s tok x
  refine ⟨?_, ?_, ?_⟩
  · intro hfalsy
    simp [requireRole, requireRoleGate, hfalsy]
  · intro t htok hfalsy hget
    subst htok
    simp [requireRole, requireRoleGate, hfalsy, hget]
  · intro t sess htok hfalsy hget
    subst htok
    constructor
    · constructor
      · intro hok
        by_contra hne
        simp [requireRole, requireRoleGate, hfalsy, hget, hne] at hok
      · intro heq
        simp [requireRole, requireRoleGate, hfalsy, hget, heq]
    · intro hne
      simp [requireRole, requireRoleGate, hfalsy, hget, hne]

/-- Witness for C3: an `admin` session calling a body gated by
`require_role("data_scientist")` is rejected with `AuthorizationError`. -/
theorem C3_require_role_cases_witness :
    requireRole "data_scientist" (fun n => n + 1)
      [("tokA", ⟨"u1", "admin", 5, rolePermissions "admin"⟩)]
      (some "tokA") (3 : Nat) = .error .authorization := by
  exact ((C3_require_role_cases "data_scientist" (fun n => n + 1)
    [("tokA", ⟨"u1", "admin", 5, rolePermissions "admin"⟩)]
    (some "tokA") 3).2.2 "tokA"
    ⟨"u1", "admin", 5, rolePermissions "admin"⟩ rfl (by decide)
    (by decide)).2 (by decide)

end DataProcessing

namespace ScriptUtils

/-!
Embedding of the path helpers and the format-dispatching load/save of
`utils.py`.  A filesystem path is its list of components below the
root; `Path.resolve()` is lexical normalisation of `""`/`"."`/`".."`
components (symlink resolution is outside the model); `Path.relative_to`
succeeds exactly when the base's components are a prefix of the
target's.
-/

/-- The Python exception classes `utils.py` raises. -/
inductive PyError where
  | valueError (msg : String)
  | fileNotFoundError (msg : String)
deriving DecidableEq, Repr

/-- Lexical `Path.resolve()`: fold the components over an accumulator,
skipping empty and `"."` components, popping one component on `".."`
(a no-op at the root, as in POSIX), and appending anything else. -/
def resolveAux : List String → List String → List String
  | acc, [] => acc
  | acc, c :: rest =>
    if c = "" ∨ c = "." then resolveAux acc rest
    else if c = ".." then resolveAux acc.dropLast rest
    else resolveAux (acc ++ [c]) rest

/-- Split a character list at `/` separators (the semantics of
`str.split('/')`, empty chunks included). -/
def splitAux : List Char → List Char → List String
  | cur, [] => [String.mk cur.reverse]
  | cur, c :: rest =>
    if c = '/' then String.mk cur.reverse :: splitAux [] rest
    else splitAux (c :: cur) rest

/-- Split a path string into its `/`-separated components. -/
def splitPath (p : String) : List String :=
  splitAux [] p.toList

/-- `pathlib` treats a right operand starting with `/` as absolute:
`base / filename` then discards `base` entirely. -/
def isAbsolute (p : String) : Bool :=
  match p.toList with
  | '/' :: _ => true
  | _ => false

/-- `str.lower()` (ASCII case folding suffices for the extensions the
dispatch compares against). -/
def lowerStr (s : String) : String :=
  String.mk (s.toList.map Char.toLower)

/-- `(base / filename).resolve()`. -/
def joinResolve (base : List String) (filename : String) : List String :=
  if isAbsolute filename then resolveAux [] (splitPath filename)
  else resolveAux [] (base ++ splitPath filename)

/-- The `allowed_data_types` list of `get_data_path`. -/
def allowed_data_types : List String :=
  ["raw", "processed", "external"]

/-- A component a fully resolved path may contain: non-empty and
neither `"."` nor `".."`. -/
def normalComponent (c : String) : Bool :=
  decide (c ≠ "" ∧ c ≠ "." ∧ c ≠ "..")

/-- `get_data_path(filename, data_type)`.  `root` is the component list
of `get_project_root()` (an absolute, already-resolved directory).
Validates `data_type` against the allow-list, then builds
`root/data/<data_type>/filename`, resolves it, and accepts exactly when
`target_path.relative_to(base_dir_resolved)` succeeds, i.e. when the
resolved base's components are a prefix of the resolved target's. -/
def get_data_path (root : List String) (filename data_type : String) :
    Except PyError (List String) :=
  if allowed_data_types.contains data_type then
    let base_dir := root ++ ["data", data_type]
    let base_dir_resolved := resolveAux [] base_dir
    let target_path := joinResolve base_dir filename
    if base_dir_resolved.isPrefixOf target_path then
      .ok target_path
    else
      .error (.valueError ("Path traversal attempt detected: " ++ filename))
  else
    .error (.valueError "Invalid data_type")

/-- `Path.name`: the final component (empty for the root path). -/
def pathName (p : List String) : String :=
  p.getLastD ""

/-- `Path.suffix` (CPython `pathlib`): the substring of the name from
its last dot, provided that dot is neither the first nor the last
character; otherwise the empty string. -/
def fileSuffix (name : String) : String :=
  match name.toList.reverse.findIdx? (fun c => c = '.') with
  | none => ""
  | some j =>
    let n := name.toList.length
    let i := n - 1 - j
    if 0 < i ∧ i < n - 1 then String.mk (name.toList.drop i) else ""

/-- The pandas writer/reader family `save_dataframe`/`load_dataframe`
dispatch to. -/
inductive FileFormat where
  | csv
  | parquet
  | excel
  | json
deriving DecidableEq, Repr

/-- The `if suffix == ... / elif ...` dispatch chain shared by
`save_dataframe` and `load_dataframe`, applied to the lowercased
suffix. -/
def formatForSuffix (sfx : String) : Option FileFormat :=
  if sfx = ".csv" then some .csv
  else if sfx = ".parquet" then some .parquet
  else if sfx = ".xlsx" ∨ sfx = ".xls" then some .excel
  else if sfx = ".json" then some .json
  else none

/-- `save_dataframe(df, filename, data_type)`: resolves the path, then
dispatches on `file_path.suffix.lower()`.  `.ok fmt` models invoking
the pandas writer of that format; on an unsupported extension the
`ValueError` is raised before any write.  (The `mkdir` of the parent
directory is not a file write and is outside the model.) -/
def save_dataframe (root : List String) (filename data_type : String) :
    Except PyError FileFormat :=
  match get_data_path root filename data_type with
  | .error e => .error e
  | .ok file_path =>
    let sfx := lowerStr (fileSuffix (pathName file_path))
    match formatForSuffix sfx with
    | some fmt => .ok fmt
    | none => .error (.valueError ("Unsupported file format: " ++ sfx))

/-- `load_dataframe(filename, data_type)`: resolves the path, raises
`FileNotFoundError` when the file does not exist (the explicit
`fileExists` argument models `file_path.exists()`), then dispatches on
`file_path.suffix.lower()` exactly as `save_dataframe` does. -/
def load_dataframe (root : List String) (filename data_type : String)
    (fileExists : Bool) : Except PyError FileFormat :=
  match get_data_path root filename data_type with
  | .error e => .error e
  | .ok file_path =>
    if fileExists then
      let sfx := lowerStr (fileSuffix (pathName file_path))
      match formatForSuffix sfx with
      | some fmt => .ok fmt
      | none => .error (.valueError ("Unsupported file format: " ++ sfx))
    else
      .error (.fileNotFoundError ("Data file not found: " ++ filename))

end ScriptUtils

namespace ScriptUtils

/-- Every path `resolveAux` produces from a normal accumulator has only
normal components: no `""`, `"."`, or `".."` survives resolution. -/
theorem resolveAux_normal :
    ∀ (l acc : List String), acc.all normalComponent = true →
      (resolveAux acc l).all normalComponent = true := by
  intro l
  induction l with
  | nil =>
    intro acc h
    simpa [resolveAux] using h
  | cons c rest ih =>
    intro acc h
    unfold resolveAux
    by_cases h1 : c = "" ∨ c = "."
    · rw [if_pos h1]
      exact ih acc h
    · rw [if_neg h1]
      by_cases h2 : c = ".."
      · rw [if_pos h2]
        apply ih
        rw [List.all_eq_true] at h ⊢
        intro x hx
        exact h x ((List.dropLast_sublist acc).subset hx)
      · rw [if_neg h2]
        apply ih
        rw [List.all_eq_true] at h ⊢
        intro x hx
        rcases List.mem_append.mp hx with hx | hx
        · exact h x hx
        · rw [List.mem_singleton.mp hx]
          push_neg at h1
          simp [normalComponent, h1.1, h1.2, h2]

/-- Claim C9: `get_data_path` either raises `ValueError` or returns the
resolved target path, which the successful branch guarantees lies
within the base directory `root/data/<data_type>`: a `data_type`
outside the allow-list is always a `ValueError`, a resolved target that
escapes the base (absolute filenames, `..` components) is always a
`ValueError`, and a returned path always extends the resolved base and
is fully normalised (it retains no `..` that could later escape). -/
theorem C9_get_data_path_containment :
    ∀ (root : List String) (filename data_type : String),
      (allowed_data_types.contains data_type = false →
        get_data_path root filename data_type =
          .error (.valueError "Invalid data_type")) ∧
      (allowed_data_types.contains data_type = true →
        (resolveAux [] (root ++ ["data", data_type])).isPrefixOf
            (joinResolve (root ++ ["data", data_type]) filename) = false →
        get_data_path root filename data_type =
          .error (.valueError
            ("Path traversal attempt detected: " ++ filename))) ∧
      (∀ p, get_data_path root filename data_type = .ok p →
        allowed_data_types.contains data_type = true ∧
        p = joinResolve (root ++ ["data", data_type]) filename ∧
        (resolveAux [] (root ++ ["data", data_type])).isPrefixOf p = true ∧
        p.all normalComponent = true) := by
  intro root filename data_type
  refine ⟨?_, ?_, ?_⟩
  · intro hdt
    unfold get_data_path
    rw [if_neg (fun h => by rw [h] at hdt; cases hdt)]
  · intro hdt hesc
    unfold get_data_path
    rw [if_pos hdt]
    rw [if_neg (fun h => by rw [h] at hesc; cases hesc)]
  · intro p hok
    unfold get_data_path at hok
    by_cases hdt : allowed_data_types.contains data_type = true
    · rw [if_pos hdt] at hok
      by_cases hpre : (resolveAux [] (root ++ ["data", data_type])).isPrefixOf
          (joinResolve (root ++ ["data", data_type]) filename) = true
      · rw [if_pos hpre] at hok
        injection hok with hok
        subst hok
        refine ⟨hdt, rfl, hpre, ?_⟩
        unfold joinResolve
        by_cases habs : isAbsolute filename = true
        · rw [if_pos habs]
          exact resolveAux_normal _ [] rfl
        · rw [if_neg habs]
          exact resolveAux_normal _ [] rfl
      · rw [if_neg hpre] at hok
        cases hok
    · rw [if_neg hdt] at hok
      cases hok

/-- Witness for C9: under project root `/home/repo`, a valid data_type
with a plain filename resolves inside the base, the escaping filenames
`../secret` and `/etc/passwd` are rejected as traversal attempts, and
the unknown data_type `tmp` is rejected outright. -/
theorem C9_get_data_path_containment_witness :
    (allowed_data_types.contains "raw" = true ∧
     ["home", "repo", "data", "raw", "file.csv"] =
       joinResolve (["home", "repo"] ++ ["data", "raw"]) "file.csv" ∧
     (resolveAux [] (["home", "repo"] ++ ["data", "raw"])).isPrefixOf
       ["home", "repo", "data", "raw", "file.csv"] = true ∧
     (["home", "repo", "data", "raw", "file.csv"]).all normalComponent =
       true) ∧
    get_data_path ["home", "repo"] "../secret" "raw" =
      .error (.valueError "Path traversal attempt detected: ../secret") ∧
    get_data_path ["home", "repo"] "/etc/passwd" "raw" =
      .error (.valueError "Path traversal attempt detected: /etc/passwd") ∧
    get_data_path ["home", "repo"] "file.csv" "tmp" =
      .error (.valueError "Invalid data_type") := by
  refine ⟨?_, ?_, ?_, ?_⟩
  · exact (C9_get_data_path_containment ["home", "repo"] "file.csv"
      "raw").2.2 ["home", "repo", "data", "raw", "file.csv"] rfl
  · exact (C9_get_data_path_containment ["home", "repo"] "../secret"
      "raw").2.1 (by decide) (by decide)
  · exact (C9_get_data_path_containment ["home", "repo"] "/etc/passwd"
      "raw").2.1 (by decide) (by decide)
  · exact (C9_get_data_path_containment ["home", "repo"] "file.csv"
      "tmp").1 (by decide)

/-- Claim C8: on a successfully resolved path, `save_dataframe` and
`load_dataframe` dispatch solely on the lowercased file-name extension:
`.csv`, `.parquet`, `.xlsx`/`.xls` and `.json` select the corresponding
pandas writer/reader, any other extension is a `ValueError` raised
before any write or read, and `load_dataframe` raises
`FileNotFoundError` when the resolved file does not exist (its
existence check precedes the extension dispatch).  When the file
exists, `load_dataframe` dispatches exactly as `save_dataframe`. -/
theorem C8_extension_dispatch :
    ∀ (root : List String) (filename data_type : String)
      (p : List String) (sfx : String),
      get_data_path root filename data_type = .ok p →
      sfx = lowerStr (fileSuffix (pathName p)) →
      (sfx = ".csv" →
        save_dataframe root filename data_type = .ok .csv) ∧
      (sfx = ".parquet" →
        save_dataframe root filename data_type = .ok .parquet) ∧
      (sfx = ".xlsx" ∨ sfx = ".xls" →
        save_dataframe root filename data_type = .ok .excel) ∧
      (sfx = ".json" →
        save_dataframe root filename data_type = .ok .json) ∧
      (sfx ∉ [".csv", ".parquet", ".xlsx", ".xls", ".json"] →
        save_dataframe root filename data_type =
          .error (.valueError ("Unsupported file format: " ++ sfx))) ∧
      (load_dataframe root filename data_type false =
        .error (.fileNotFoundError ("Data file not found: " ++ filename))) ∧
      (load_dataframe root filename data_type true =
        save_dataframe root filename data_type) := by
  intro root filename data_type p sfx hok hsfx
  have hsave : save_dataframe root filename data_type =
      (match formatForSuffix sfx with
       | some fmt => .ok fmt
       | none => .error (.valueError ("Unsupported file format: " ++ sfx))) := by
    unfold save_dataframe
    rw [hok, hsfx]
  have hload : load_dataframe root filename data_type true =
      save_dataframe root filename data_type := by
    unfold load_dataframe
    rw [hok, hsave, hsfx]
    simp
  refine ⟨?_, ?_, ?_, ?_, ?_, ?_, hload⟩
  · intro h
    rw [hsave, h]
    rfl
  · intro h
    rw [hsave, h]
    rfl
  · rcases Classical.em (sfx = ".xlsx") with h | h
    · intro _
      rw [hsave, h]
      rfl
    · intro hx
      rcases hx with hx | hx
      · exact absurd hx h
      · rw [hsave, hx]
        rfl
  · intro h
    rw [hsave, h]
    rfl
  · intro h
    have h1 : ¬ sfx = ".csv" := fun hh => h (by rw [hh]; decide)
    have h2 : ¬ sfx = ".parquet" := fun hh => h (by rw [hh]; decide)
    have h3 : ¬ (sfx = ".xlsx" ∨ sfx = ".xls") := by
      rintro (hh | hh) <;> exact h (by rw [hh]; decide)
    have h4 : ¬ sfx = ".json" := fun hh => h (by rw [hh]; decide)
    rw [hsave]
    unfold formatForSuffix
    rw [if_neg h1, if_neg h2, if_neg h3, if_neg h4]
  · unfold load_dataframe
    rw [hok]
    simp

/-- Witness for C8: with filename `report.CSV` under `data/raw`, the
lowercased suffix is `.csv`, saving selects the csv writer, a missing
file on load is `FileNotFoundError`, an existing one loads with the
same dispatch, and the unsupported `notes.txt` is a `ValueError`. -/
theorem C8_extension_dispatch_witness :
    (save_dataframe ["home", "repo"] "report.CSV" "raw" = .ok .csv ∧
     load_dataframe ["home", "repo"] "report.CSV" "raw" false =
       .error (.fileNotFoundError "Data file not found: report.CSV") ∧
     load_dataframe ["home", "repo"] "report.CSV" "raw" true =
       save_dataframe ["home", "repo"] "report.CSV" "raw") ∧
    save_dataframe ["home", "repo"] "notes.txt" "raw" =
      .error (.valueError "Unsupported file format: .txt") := by
  have h1 := C8_extension_dispatch ["home", "repo"] "report.CSV" "raw"
    ["home", "repo", "data", "raw", "report.CSV"] ".csv" rfl (by decide)
  have h2 := C8_extension_dispatch ["home", "repo"] "notes.txt" "raw"
    ["home", "repo", "data", "raw", "notes.txt"] ".txt" rfl (by decide)
  exact ⟨⟨h1.1 rfl, h1.2.2.2.2.2.1, h1.2.2.2.2.2.2⟩,
    h2.2.2.2.2.1 (by decide)⟩

end ScriptUtils

namespace DataFrames

/-!
Embedding of the four DataFrame transformations of `data_processing.py`
named by claim C10 (`clean_column_names`, `handle_missing_values`,
`encode_categorical_variables`, `scale_features`), with an explicit
heap of DataFrame objects so that Python's reference semantics — and
hence mutation of the caller's argument — is observable.  Cell values:
pandas float64 cells are modelled over `ℚ` (with `Rat.sqrt` standing in
for the float square root of `StandardScaler`, exact on perfect
squares), `NaN` as `Cell.na`, and object cells as strings; the dtype of
a column is read off its cells (a column is numeric when every cell is
a number or `NaN`, object when it holds some string).  None of the
frame theorems below depends on the numeric values of cells.
-/

/-- One cell of a DataFrame. -/
inductive Cell where
  | na
  | num (q : ℚ)
  | str (s : String)
deriving DecidableEq, Repr

/-- A DataFrame value: column names and rows of cells. -/
structure DataFrame where
  columns : List String
  rows : List (List Cell)
deriving DecidableEq, Repr

/-- A heap of DataFrame objects: Python variables hold references
(`Nat`) into it.  `next` is the next fresh reference. -/
structure Heap where
  next : Nat
  store : List (Nat × DataFrame)
deriving Repr

/-- Lookup of a reference in a store. -/
def lookupRef : List (Nat × DataFrame) → Nat → Option DataFrame
  | [], _ => none
  | p :: rest, r => if p.1 = r then some p.2 else lookupRef rest r

/-- Dereference. -/
def Heap.get (h : Heap) (r : Nat) : Option DataFrame :=
  lookupRef h.store r

/-- `df.copy()` and every other object creation: bind a fresh
reference to a value. -/
def Heap.alloc (h : Heap) (d : DataFrame) : Heap × Nat :=
  (⟨h.next + 1, (h.next, d) :: h.store⟩, h.next)

/-- In-place mutation of the object a reference points to. -/
def Heap.set (h : Heap) (r : Nat) (d : DataFrame) : Heap :=
  ⟨h.next, h.store.map (fun p => if p.1 = r then (r, d) else p)⟩

/-- Every live reference is below `next`. -/
def Heap.wf (h : Heap) : Prop :=
  ∀ p ∈ h.store, p.1 < h.next

instance (h : Heap) : Decidable (Heap.wf h) :=
  List.decidableBAll _ h.store

/-! Column access helpers shared by the transformations. -/

/-- Index of a column name. -/
def colIdx (df : DataFrame) (c : String) : Option Nat :=
  df.columns.findIdx? (fun x => x = c)

/-- `df[c]` as a list of cells. -/
def getCol (df : DataFrame) (c : String) : List Cell :=
  match colIdx df c with
  | some i => df.rows.map (fun row => row.getD i Cell.na)
  | none => []

/-- `df[c] = vals` (a value-level column write on the DataFrame the
mutated reference holds). -/
def setCol (df : DataFrame) (c : String) (vals : List Cell) : DataFrame :=
  match colIdx df c with
  | some i => { df with rows := (df.rows.zip vals).map (fun p => p.1.set i p.2) }
  | none => df

/-- Numeric dtype (`int64`/`float64`): every cell is a number or `NaN`. -/
def isNumericCol (df : DataFrame) (c : String) : Bool :=
  (getCol df c).all (fun x =>
    match x with
    | .na => true
    | .num _ => true
    | .str _ => false)

/-- Object/category dtype: the column holds some string cell. -/
def isObjectCol (df : DataFrame) (c : String) : Bool :=
  (getCol df c).any (fun x =>
    match x with
    | .str _ => true
    | _ => false)

/-- The numeric entries of a column (pandas reductions skip `NaN`). -/
def cellNums (col : List Cell) : List ℚ :=
  col.filterMap (fun x =>
    match x with
    | .num q => some q
    | _ => none)

/-- `Series.mean()` over the non-`NaN` entries (`none` = `NaN` when the
column has no numeric entry). -/
def meanQ (l : List ℚ) : Option ℚ :=
  if l.length = 0 then none else some (l.sum / l.length)

/-- Insertion into a sorted list of rationals. -/
def insertSortedQ (q : ℚ) : List ℚ → List ℚ
  | [] => [q]
  | x :: xs => if q ≤ x then q :: x :: xs else x :: insertSortedQ q xs

/-- Sort a list of rationals. -/
def sortQ (l : List ℚ) : List ℚ :=
  l.foldr insertSortedQ []

/-- `Series.median()`: middle of the sorted non-`NaN` entries, the
average of the two middles for an even count. -/
def medianQ (l : List ℚ) : Option ℚ :=
  let s := sortQ l
  let n := s.length
  if n = 0 then none
  else if n % 2 = 1 then some (s.getD (n / 2) 0)
  else some ((s.getD (n / 2 - 1) 0 + s.getD (n / 2) 0) / 2)

/-- `Series.fillna(v)` (filling with `NaN` leaves `NaN` in place). -/
def fillCol (col : List Cell) (v : Cell) : List Cell :=
  col.map (fun x =>
    match x with
    | .na => v
    | other => other)

/-- An order on cells, used only to pick `Series.mode()[0]`: numbers
before strings, each ordered naturally (pandas sorts the mode values). -/
def cellLE : Cell → Cell → Bool
  | .na, _ => true
  | _, .na => false
  | .num a, .num b => a ≤ b
  | .num _, .str _ => true
  | .str _, .num _ => false
  | .str a, .str b => a ≤ b

/-- Multiplicity of a value in a column. -/
def countCell (col : List Cell) (v : Cell) : Nat :=
  (col.filter (fun x => x = v)).length

/-- `Series.mode()[0]` if the mode series is non-empty: the least (by
`cellLE`) among the most frequent non-`NaN` values. -/
def modeCell (col : List Cell) : Option Cell :=
  let vals := col.filter (fun x => x ≠ Cell.na)
  let maxCount := (vals.map (countCell vals)).foldr max 0
  (vals.filter (fun v => countCell vals v = maxCount)).foldr
    (fun a b? =>
      match b? with
      | none => some a
      | some b => if cellLE a b then some a else some b)
    none

/-- `fillna(method='ffill')` on one column: carry the last non-`NaN`
value forward. -/
def ffillCol : List Cell → Option Cell → List Cell
  | [], _ => []
  | c :: rest, carried =>
    match c with
    | .na =>
      (match carried with
       | some v => v
       | none => Cell.na) :: ffillCol rest carried
    | v => v :: ffillCol rest (some v)

/-- `fillna(method='bfill')`: forward fill on the reversed column. -/
def bfillCol (col : List Cell) : List Cell :=
  (ffillCol col.reverse none).reverse

/-- `df.dropna(subset=cols)`: keep the rows with no `NaN` in any of the
subset columns. -/
def dropnaSubset (df : DataFrame) (cols : List String) : DataFrame :=
  let idxs := cols.filterMap (fun c => colIdx df c)
  { df with
    rows := df.rows.filter (fun row =>
      idxs.all (fun i => row.getD i Cell.na ≠ Cell.na)) }

/-- The value-level body of `handle_missing_values` acting on the copy:
the `if strategy == ... / elif ...` chain of the source, column
defaulting to all columns; an unrecognised strategy falls through all
branches and the copy is returned unchanged. -/
def handleMissingDF (df : DataFrame) (strategy : String)
    (columns : Option (List String)) (fill_value : Cell) : DataFrame :=
  let cols :=
    match columns with
    | some cs => cs
    | none => df.columns
  if strategy = "drop" then dropnaSubset df cols
  else if strategy = "mean" then
    cols.foldl (fun d c =>
      if isNumericCol d c then
        setCol d c (fillCol (getCol d c)
          (match meanQ (cellNums (getCol d c)) with
           | some m => .num m
           | none => .na))
      else d) df
  else if strategy = "median" then
    cols.foldl (fun d c =>
      if isNumericCol d c then
        setCol d c (fillCol (getCol d c)
          (match medianQ (cellNums (getCol d c)) with
           | some m => .num m
           | none => .na))
      else d) df
  else if strategy = "mode" then
    cols.foldl (fun d c =>
      match modeCell (getCol d c) with
      | some m => setCol d c (fillCol (getCol d c) m)
      | none => d) df
  else if strategy = "forward_fill" then
    cols.foldl (fun d c => setCol d c (ffillCol (getCol d c) none)) df
  else if strategy = "back_fill" then
    cols.foldl (fun d c => setCol d c (bfillCol (getCol d c))) df
  else if strategy = "custom" then
    cols.foldl (fun d c => setCol d c (fillCol (getCol d c) fill_value)) df
  else df

/-! The column-name cleaning of `clean_column_names`:
`.str.strip().str.lower().str.replace(r'[^\w\s]', '').str.replace(r'\s+', '_')`. -/

/-- `str.strip()`: drop leading and trailing whitespace. -/
def stripStr (s : String) : String :=
  String.mk
    (((s.toList.dropWhile Char.isWhitespace).reverse.dropWhile
      Char.isWhitespace).reverse)

/-- A regex `\w` character (ASCII model: alphanumeric or underscore). -/
def isWordChar (c : Char) : Bool :=
  c.isAlphanum || c = '_'

/-- `re.sub(r'[^\w\s]', '', s)`: keep only word and whitespace
characters. -/
def removeSpecial (s : String) : String :=
  String.mk (s.toList.filter (fun c => isWordChar c || c.isWhitespace))

/-- `re.sub(r'\s+', '_', s)`: each maximal whitespace run becomes one
underscore (`prevWs` records whether the previous character was
whitespace). -/
def collapseWsAux : List Char → Bool → List Char
  | [], _ => []
  | c :: rest, prevWs =>
    if c.isWhitespace then
      if prevWs then collapseWsAux rest true
      else '_' :: collapseWsAux rest true
    else
      c :: collapseWsAux rest false

/-- The full per-name pipeline of `clean_column_names`, in source
order: strip, lower, remove special characters, collapse whitespace to
underscores. -/
def cleanColumnName (s : String) : String :=
  String.mk
    (collapseWsAux
      ((removeSpecial (ScriptUtils.lowerStr (stripStr s))).toList) false)

/-! The value-level bodies of `encode_categorical_variables` and
`scale_features`. -/

/-- `.astype(str)` on a cell (`NaN` prints as `"nan"`; the numeral
formatting of floats is modelled by rational `toString`). -/
def cellToStr : Cell → String
  | .na => "nan"
  | .num q => toString q
  | .str s => s

/-- Insertion into a sorted duplicate-free list of strings. -/
def insertSortedUnique (s : String) : List String → List String
  | [] => [s]
  | x :: xs =>
    if s = x then x :: xs
    else if s < x then s :: x :: xs
    else x :: insertSortedUnique s xs

/-- `LabelEncoder().fit(...)`'s `classes_`: the sorted distinct string
values of the column. -/
def classesOf (col : List Cell) : List String :=
  col.foldr (fun c acc => insertSortedUnique (cellToStr c) acc) []

/-- The integer code of a class. -/
def indexOfStr (l : List String) (s : String) : Nat :=
  (l.findIdx? (fun x => x = s)).getD 0

/-- `LabelEncoder().fit_transform(df[c].astype(str))`: each cell
becomes the index of its string form among the sorted classes. -/
def labelEncodeCol (col : List Cell) : List Cell :=
  col.map (fun x =>
    Cell.num ((indexOfStr (classesOf col) (cellToStr x) : ℚ)))

/-- Delete a column. -/
def dropCol (df : DataFrame) (c : String) : DataFrame :=
  match colIdx df c with
  | some i =>
    { columns := df.columns.eraseIdx i,
      rows := df.rows.map (fun row => row.eraseIdx i) }
  | none => df

/-- `pd.get_dummies(df, columns=[c], prefix=[c])` for one column: the
column is replaced by one indicator column `c_v` per distinct non-`NaN`
value `v`, appended after the remaining columns. -/
def oneHotCol (df : DataFrame) (c : String) : DataFrame :=
  match colIdx df c with
  | none => df
  | some i =>
    let col := df.rows.map (fun row => row.getD i Cell.na)
    let classes := classesOf (col.filter (fun x => x ≠ Cell.na))
    let base := dropCol df c
    { columns := base.columns ++ classes.map (fun v => c ++ "_" ++ v),
      rows := (base.rows.zip col).map (fun p =>
        p.1 ++ classes.map (fun v =>
          if cellToStr p.2 = v then Cell.num 1 else Cell.num 0)) }

/-- The value-level body of `encode_categorical_variables` on the copy:
columns default to the object/category-dtyped ones; `label` encodes
each column in place recording its classes, `onehot` applies
`get_dummies` recording the column list (the fitted encoder objects are
modelled by their class lists). -/
def encodeDF (df : DataFrame) (columns : Option (List String))
    (method : String) : DataFrame × List (String × List String) :=
  let cols :=
    match columns with
    | some cs => cs
    | none => df.columns.filter (fun c => isObjectCol df c)
  if method = "label" then
    (cols.foldl (fun d c => setCol d c (labelEncodeCol (getCol d c))) df,
     cols.map (fun c => (c, classesOf (getCol df c))))
  else if method = "onehot" then
    (cols.foldl (fun d c => oneHotCol d c) df,
     [("columns", cols), ("method", ["onehot"])])
  else
    (df, [])

/-- Population variance of the numeric entries. -/
def varianceQ (l : List ℚ) : ℚ :=
  match meanQ l with
  | none => 0
  | some m => (l.map (fun x => (x - m) ^ 2)).sum / l.length

/-- `StandardScaler().fit_transform` on one column:
`(x - mean)/sqrt(variance)`, a zero scale replaced by 1 as in sklearn's
`_handle_zeros_in_scale`. -/
def standardCol (col : List Cell) : List Cell :=
  match meanQ (cellNums col) with
  | none => col
  | some m =>
    let sd := Rat.sqrt (varianceQ (cellNums col))
    let scale := if sd = 0 then 1 else sd
    col.map (fun x =>
      match x with
      | .num q => .num ((q - m) / scale)
      | other => other)

/-- `MinMaxScaler().fit_transform` on one column:
`(x - min)/(max - min)`, a zero range replaced by 1. -/
def minmaxCol (col : List Cell) : List Cell :=
  match cellNums col with
  | [] => col
  | q :: qs =>
    let mn := qs.foldr min q
    let mx := qs.foldr max q
    let denom := if mx = mn then 1 else mx - mn
    col.map (fun x =>
      match x with
      | .num y => .num ((y - mn) / denom)
      | other => other)

/-- The value-level body of `scale_features` on the copy: columns
default to the numeric ones; `standard` and `minmax` select the scaler,
anything else is the `ValueError` the source raises before
transforming. -/
def scaleDF (df : DataFrame) (columns : Option (List String))
    (method : String) : Except String DataFrame :=
  let cols :=
    match columns with
    | some cs => cs
    | none => df.columns.filter (fun c => isNumericCol df c)
  if method = "standard" then
    .ok (cols.foldl (fun d c => setCol d c (standardCol (getCol d c))) df)
  else if method = "minmax" then
    .ok (cols.foldl (fun d c => setCol d c (minmaxCol (getCol d c))) df)
  else
    .error "Method must be 'standard' or 'minmax'"

/-! The four functions at the heap level.  Each mirrors its source
body: dereference the argument, `df.copy()` (a fresh allocation), then
mutate only the copy and return its reference.  `none` marks a dangling
argument reference, which Python cannot produce. -/

/-- `clean_column_names(df)` (body behind the `require_permission`
gate, which is claim C1's subject). -/
def clean_column_names (h : Heap) (r : Nat) : Heap × Option Nat :=
  match h.get r with
  | none => (h, none)
  | some df =>
    let a := h.alloc df
    (a.1.set a.2 { df with columns := df.columns.map cleanColumnName },
     some a.2)

/-- `handle_missing_values(df, strategy, columns, fill_value)`. -/
def handle_missing_values (h : Heap) (r : Nat) (strategy : String)
    (columns : Option (List String)) (fill_value : Cell) :
    Heap × Option Nat :=
  match h.get r with
  | none => (h, none)
  | some df =>
    let a := h.alloc df
    (a.1.set a.2 (handleMissingDF df strategy columns fill_value),
     some a.2)

/-- `encode_categorical_variables(df, columns, method)`: returns the
encoded copy's reference and the encoders dictionary. -/
def encode_categorical_variables (h : Heap) (r : Nat)
    (columns : Option (List String)) (method : String) :
    Heap × Option (Nat × List (String × List String)) :=
  match h.get r with
  | none => (h, none)
  | some df =>
    let a := h.alloc df
    let res := encodeDF df columns method
    (a.1.set a.2 res.1, some (a.2, res.2))

/-- `scale_features(df, columns, method)`: the copy is allocated first
(as in the source), then an unknown method raises `ValueError` with the
copy left untouched, otherwise the copy is scaled in place. -/
def scale_features (h : Heap) (r : Nat) (columns : Option (List String))
    (method : String) : Heap × Except String Nat :=
  match h.get r with
  | none => (h, .error "invalid reference")
  | some df =>
    let a := h.alloc df
    match scaleDF df columns method with
    | .ok df' => (a.1.set a.2 df', .ok a.2)
    | .error e => (a.1, .error e)

end DataFrames

namespace DataFrames

/-! Heap lemmas: a copy-allocate-mutate sequence touches no
pre-existing reference. -/

theorem lookupRef_some_lt (n : Nat) :
    ∀ (l : List (Nat × DataFrame)) (r : Nat) (d : DataFrame),
      (∀ p ∈ l, p.1 < n) → lookupRef l r = some d → r < n := by
  intro l
  induction l with
  | nil =>
    intro r d _ hfind
    cases hfind
  | cons hd tl ih =>
    intro r d hall hfind
    unfold lookupRef at hfind
    by_cases hh : hd.1 = r
    · rw [← hh]
      exact hall hd (List.mem_cons_self _ _)
    · rw [if_neg hh] at hfind
      exact ih r d (fun p hp => hall p (List.mem_cons_of_mem _ hp)) hfind

theorem lookupRef_ge_none (n : Nat) :
    ∀ l : List (Nat × DataFrame),
      (∀ p ∈ l, p.1 < n) → lookupRef l n = none := by
  intro l
  induction l with
  | nil => intro _; rfl
  | cons hd tl ih =>
    intro hall
    unfold lookupRef
    rw [if_neg (Nat.ne_of_lt (hall hd (List.mem_cons_self _ _)))]
    exact ih (fun p hp => hall p (List.mem_cons_of_mem _ hp))

theorem mapSet_id (n : Nat) (d : DataFrame) :
    ∀ l : List (Nat × DataFrame), (∀ p ∈ l, p.1 < n) →
      l.map (fun p => if p.1 = n then (n, d) else p) = l := by
  intro l
  induction l with
  | nil => intro _; rfl
  | cons hd tl ih =>
    intro hall
    rw [List.map_cons]
    rw [if_neg (Nat.ne_of_lt (hall hd (List.mem_cons_self _ _)))]
    rw [ih (fun p hp => hall p (List.mem_cons_of_mem _ hp))]

theorem allocSet_eq (h : Heap) (d d' : DataFrame) (hwf : Heap.wf h) :
    (h.alloc d).1.set (h.alloc d).2 d' =
      ⟨h.next + 1, (h.next, d') :: h.store⟩ := by
  unfold Heap.alloc Heap.set
  simp only [List.map_cons, if_pos]
  rw [mapSet_id h.next d' h.store hwf]

theorem heap_fresh (h : Heap) (hwf : Heap.wf h) : h.get h.next = none :=
  lookupRef_ge_none h.next h.store hwf

theorem heap_frame (h : Heap) (d d' : DataFrame) (hwf : Heap.wf h) :
    ∀ (r₀ : Nat) (d₀ : DataFrame), h.get r₀ = some d₀ →
      ((h.alloc d).1.set (h.alloc d).2 d').get r₀ = some d₀ := by
  intro r₀ d₀ hget
  rw [allocSet_eq h d d' hwf]
  have hlt : r₀ < h.next :=
    lookupRef_some_lt h.next h.store r₀ d₀ hwf hget
  show lookupRef ((h.next, d') :: h.store) r₀ = some d₀
  unfold lookupRef
  rw [if_neg (Nat.ne_of_gt hlt)]
  exact hget

theorem heap_new (h : Heap) (d d' : DataFrame) (hwf : Heap.wf h) :
    ((h.alloc d).1.set (h.alloc d).2 d').get (h.alloc d).2 = some d' := by
  rw [allocSet_eq h d d' hwf]
  show lookupRef ((h.next, d') :: h.store) h.next = some d'
  unfold lookupRef
  rw [if_pos rfl]

/-- Claim C10: `clean_column_names`, `handle_missing_values`,
`encode_categorical_variables`, and `scale_features` never mutate their
input.  Whatever the strategy, columns, fill value, or method, every
reference alive before the call — in particular the caller's `df` with
all its columns, rows, and cells — still holds exactly its old value
afterwards; the result handed back is a fresh reference (unbound before
the call) to the transformed copy. -/
theorem C10_no_input_mutation :
    ∀ (h : Heap) (r : Nat) (df : DataFrame), Heap.wf h →
      h.get r = some df →
      h.get h.next = none ∧
      ((clean_column_names h r).2 = some h.next ∧
       (∀ r₀ d₀, h.get r₀ = some d₀ →
         (clean_column_names h r).1.get r₀ = some d₀) ∧
       (clean_column_names h r).1.get h.next =
         some { df with columns := df.columns.map cleanColumnName }) ∧
      (∀ strategy columns fill_value,
        (handle_missing_values h r strategy columns fill_value).2 =
          some h.next ∧
        (∀ r₀ d₀, h.get r₀ = some d₀ →
          (handle_missing_values h r strategy columns fill_value).1.get r₀ =
            some d₀) ∧
        (handle_missing_values h r strategy columns fill_value).1.get
            h.next =
          some (handleMissingDF df strategy columns fill_value)) ∧
      (∀ columns method,
        (encode_categorical_variables h r columns method).2 =
          some (h.next, (encodeDF df columns method).2) ∧
        (∀ r₀ d₀, h.get r₀ = some d₀ →
          (encode_categorical_variables h r columns method).1.get r₀ =
            some d₀) ∧
        (encode_categorical_variables h r columns method).1.get h.next =
          some (encodeDF df columns method).1) ∧
      (∀ columns method,
        (∀ rNew, (scale_features h r columns method).2 = .ok rNew →
          rNew = h.next) ∧
        (∀ r₀ d₀, h.get r₀ = some d₀ →
          (scale_features h r columns method).1.get r₀ = some d₀) ∧
        (∀ df', scaleDF df columns method = .ok df' →
          (scale_features h r columns method).1.get h.next = some df')) := by
  intro h r df hwf hget
  refine ⟨heap_fresh h hwf, ?_, ?_, ?_, ?_⟩
  · simp only [clean_column_names, hget]
    exact ⟨rfl,
      fun r₀ d₀ hg => heap_frame h df _ hwf r₀ d₀ hg,
      heap_new h df _ hwf⟩
  · intro strategy columns fill_value
    simp only [handle_missing_values, hget]
    exact ⟨rfl,
      fun r₀ d₀ hg => heap_frame h df _ hwf r₀ d₀ hg,
      heap_new h df _ hwf⟩
  · intro columns method
    simp only [encode_categorical_variables, hget]
    exact ⟨rfl,
      fun r₀ d₀ hg => heap_frame h df _ hwf r₀ d₀ hg,
      heap_new h df _ hwf⟩
  · intro columns method
    have hmain : scale_features h r columns method =
        (match scaleDF df columns method with
         | .ok df2 =>
           ((h.alloc df).1.set (h.alloc df).2 df2, .ok (h.alloc df).2)
         | .error e => ((h.alloc df).1, .error e)) := by
      simp only [scale_features, hget]
    refine ⟨fun rNew hr => ?_, fun r₀ d₀ hg => ?_, fun df'' hdf => ?_⟩
    · rw [hmain] at hr
      rcases hs : scaleDF df columns method with e | d2
      · rw [hs] at hr
        simp at hr
      · rw [hs] at hr
        simp at hr
        exact hr.symm
    · rw [hmain]
      rcases hs : scaleDF df columns method with e | d2
      · show lookupRef ((h.next, df) :: h.store) r₀ = some d₀
        unfold lookupRef
        rw [if_neg (Nat.ne_of_gt
          (lookupRef_some_lt h.next h.store r₀ d₀ hwf hg))]
        exact hg
      · show ((h.alloc df).1.set (h.alloc df).2 d2).get r₀ = some d₀
        exact heap_frame h df d2 hwf r₀ d₀ hg
    · rw [hmain, hdf]
      show ((h.alloc df).1.set (h.alloc df).2 df'').get (h.alloc df).2 =
        some df''
      exact heap_new h df df'' hwf

/-- Witness for C10: on a one-object heap holding the DataFrame with
the single column `"A B"`, each of the four calls leaves reference 0
(the caller's object) untouched and returns the fresh reference 1;
`clean_column_names` stores the cleaned copy (column `"a_b"`) there. -/
theorem C10_no_input_mutation_witness :
    Heap.get ⟨1, [(0, ⟨["A B"], [[Cell.str "x"]]⟩)]⟩ 1 = none ∧
    (clean_column_names ⟨1, [(0, ⟨["A B"], [[Cell.str "x"]]⟩)]⟩ 0).2 =
      some 1 ∧
    (clean_column_names ⟨1, [(0, ⟨["A B"], [[Cell.str "x"]]⟩)]⟩ 0).1.get 0 =
      some ⟨["A B"], [[Cell.str "x"]]⟩ ∧
    (clean_column_names ⟨1, [(0, ⟨["A B"], [[Cell.str "x"]]⟩)]⟩ 0).1.get 1 =
      some ⟨["a_b"], [[Cell.str "x"]]⟩ ∧
    (handle_missing_values ⟨1, [(0, ⟨["A B"], [[Cell.str "x"]]⟩)]⟩ 0
        "mean" none Cell.na).1.get 0 =
      some ⟨["A B"], [[Cell.str "x"]]⟩ ∧
    (encode_categorical_variables ⟨1, [(0, ⟨["A B"], [[Cell.str "x"]]⟩)]⟩ 0
        none "label").1.get 0 =
      some ⟨["A B"], [[Cell.str "x"]]⟩ ∧
    (scale_features ⟨1, [(0, ⟨["A B"], [[Cell.str "x"]]⟩)]⟩ 0
        none "standard").1.get 0 =
      some ⟨["A B"], [[Cell.str "x"]]⟩ := by
  have H := C10_no_input_mutation ⟨1, [(0, ⟨["A B"], [[Cell.str "x"]]⟩)]⟩
    0 ⟨["A B"], [[Cell.str "x"]]⟩ (by decide) (by decide)
  refine ⟨H.1, H.2.1.1, H.2.1.2.1 0 ⟨["A B"], [[Cell.str "x"]]⟩ (by decide),
    ?_, ?_, ?_, ?_⟩
  · rw [H.2.1.2.2]
    rfl
  · exact (H.2.2.1 "mean" none Cell.na).2.1 0
      ⟨["A B"], [[Cell.str "x"]]⟩ (by decide)
  · exact (H.2.2.2.1 none "label").2.1 0
      ⟨["A B"], [[Cell.str "x"]]⟩ (by decide)
  · exact (H.2.2.2.2 none "standard").2.1 0
      ⟨["A B"], [[Cell.str "x"]]⟩ (by decide)

end DataFrames
